import Mathlib

/-!
Verification of the KRX net-buy ranking report engine
(`ranking_excel_adapter.py`, `high_price_indicator_service.py`,
`price_data_port.py`) against its natural-language specification.

Conventions of the shallow embedding:
* Python strings (stock display names, tickers, colour keys) are modelled
  as `List Char` (`Name`), matching Python's sequence-of-code-points view;
  sheet titles stay `String`.
* Python floats (prices) are modelled as rationals `ℚ`.
* Python dicts are modelled as association lists with last-insertion-wins
  lookup (`dictGet`), which matches dict overwrite semantics for every
  lookup the code performs.
* openpyxl worksheets are modelled by the cells the adapter actually reads
  and writes: per layout section, the 30 stock-name cells (rows 5..34 of
  the section's stock column) plus the value, rank-change, streak-fill and
  high-price-indicator cells the adapter writes.  Header cells (A3/A5/B5)
  and cosmetic formatting are never read back by the code and are omitted.
-/

/-- A Python string, as a list of unicode code points. -/
abbrev Name := List Char

/-- The pairing marker suffix `' (쌍)'` appended to cross-listed stocks. -/
def pairSuffix : Name := [' ', '(', '쌍', ')']

/-- Appending the pairing marker to a display name (`f"{clean} (쌍)"`). -/
def markPair (n : Name) : Name := n ++ pairSuffix

/-- Fuel-indexed worker for `cleanName`.  Scans left to right; wherever the
pairing marker `' (쌍)'` starts, it is skipped (deleted) and scanning resumes
after it, exactly like Python's `str.replace(' (쌍)', '')`.  The fuel is only
a structural-recursion device; `cleanName` supplies enough fuel. -/
def cleanNameAux : Nat → Name → Name
  | 0, l => l
  | _ + 1, [] => []
  | f + 1, c :: rest =>
    if pairSuffix.isPrefixOf (c :: rest) then cleanNameAux f (rest.drop 3)
    else c :: cleanNameAux f rest

/-- `val.replace(' (쌍)', '')`: removes every (left-to-right, non-overlapping)
occurrence of the pairing marker from a display name. -/
def cleanName (n : Name) : Name := cleanNameAux n.length n

/-- Whether the pairing marker occurs anywhere in `n` (as a contiguous
substring).  `cleanName` is the identity exactly on marker-free names. -/
def hasPair : Name → Bool
  | [] => false
  | c :: rest => pairSuffix.isPrefixOf (c :: rest) || hasPair rest

/-- Python-dict lookup on an association list built by insertion:
the *last* binding of a key wins, as with dict overwrite. -/
def dictGet {β : Type} : List (Name × β) → Name → Option β
  | [], _ => none
  | p :: rest, k =>
    match dictGet rest k with
    | some v => some v
    | none => if p.1 = k then some p.2 else none

/-- Python-dict insertion: overwrite the binding in place if the key is
present, otherwise append the new binding. -/
def dinsert {β : Type} (m : List (Name × β)) (k : Name) (v : β) : List (Name × β) :=
  if m.any (fun p => p.1 = k) then m.map (fun p => if p.1 = k then (k, v) else p)
  else m ++ [(k, v)]

/-! ### Price milestone classifier (`price_data_port.py`, `high_price_indicator_service.py`) -/

/-- `StockPriceInfo` dataclass: closing price, trailing-52-week high and
all-time high for one ticker.  Floats are modelled as rationals. -/
structure StockPriceInfo where
  ticker : Name
  close_price : ℚ
  high_52w : ℚ
  all_time_high : ℚ
deriving DecidableEq

/-- `NEAR_THRESHOLD = 0.90`. -/
def NEAR_THRESHOLD : ℚ := 9 / 10

/-- `is_52w_high`: `close_price >= high_52w`. -/
def StockPriceInfo.is_52w_high (p : StockPriceInfo) : Bool :=
  decide (p.high_52w ≤ p.close_price)

/-- `is_all_time_high`: `close_price >= all_time_high`. -/
def StockPriceInfo.is_all_time_high (p : StockPriceInfo) : Bool :=
  decide (p.all_time_high ≤ p.close_price)

/-- `is_near_52w_high`: `close_price >= high_52w * 0.90 and not is_52w_high`. -/
def StockPriceInfo.is_near_52w_high (p : StockPriceInfo) : Bool :=
  decide (p.high_52w * NEAR_THRESHOLD ≤ p.close_price) && !p.is_52w_high

/-- `is_near_all_time_high`: `close_price >= all_time_high * 0.90 and not
is_all_time_high`. -/
def StockPriceInfo.is_near_all_time_high (p : StockPriceInfo) : Bool :=
  decide (p.all_time_high * NEAR_THRESHOLD ≤ p.close_price) && !p.is_all_time_high

/-- `_get_indicator_display`: priority chain all-time-high > near-all-time-high
> 52w-high > near-52w-high > none, returning the display text and colour key. -/
def get_indicator_display (p : StockPriceInfo) : Option String × Option String :=
  if p.is_all_time_high then (some "역·신", some "all_time_high")
  else if p.is_near_all_time_high then (some "역·근", some "near_all_time_high")
  else if p.is_52w_high then (some "52·신", some "week_52_high")
  else if p.is_near_52w_high then (some "52·근", some "near_52w_high")
  else (none, none)

/-- The claim's own chain, written exactly as the specification words it
(for the refinement comparison in C1): all-time-high if close ≥ allTimeHigh;
else near-all-time-high if close ≥ 0.90·allTimeHigh; else week52-high if
close ≥ week52High; else near-week52-high if close ≥ 0.90·week52High; else none. -/
def milestone_spec_chain (p : StockPriceInfo) : Option String × Option String :=
  if p.all_time_high ≤ p.close_price then (some "역·신", some "all_time_high")
  else if NEAR_THRESHOLD * p.all_time_high ≤ p.close_price then
    (some "역·근", some "near_all_time_high")
  else if p.high_52w ≤ p.close_price then (some "52·신", some "week_52_high")
  else if NEAR_THRESHOLD * p.high_52w ≤ p.close_price then
    (some "52·근", some "near_52w_high")
  else (none, none)

/-- Result of one `get_price_info` call on the price port: a value, a
not-found (`None`), or a raised exception. -/
inductive PriceResult where
  | found (info : StockPriceInfo)
  | notFound
  | failure
deriving DecidableEq

/-- `analyze_high_price_indicators`: for every `(stock_name, ticker)` of the
ticker map (a dict, keys unique) query the oracle once; a not-found or an
exception yields `{'text': None, 'color': None}` for that entity and the loop
continues.  The oracle is already specialised to the report date. -/
def analyze_high_price_indicators (oracle : Name → PriceResult)
    (tmap : List (Name × Name)) : List (Name × (Option String × Option String)) :=
  tmap.map (fun p =>
    (p.1,
      match oracle p.2 with
      | .found info => get_indicator_display info
      | .notFound => (none, none)
      | .failure => (none, none)))

/-- Helper for C1: the implementation's chain of `is_*` predicates coincides
with the specification's strict-priority chain, unconditionally. -/
theorem get_indicator_display_eq_spec_chain (p : StockPriceInfo) :
    get_indicator_display p = milestone_spec_chain p := by
  by_cases h1 : p.all_time_high ≤ p.close_price <;>
    by_cases h2 : NEAR_THRESHOLD * p.all_time_high ≤ p.close_price <;>
      by_cases h3 : p.high_52w ≤ p.close_price <;>
        by_cases h4 : NEAR_THRESHOLD * p.high_52w ≤ p.close_price <;>
          simp [get_indicator_display, milestone_spec_chain,
            StockPriceInfo.is_all_time_high, StockPriceInfo.is_near_all_time_high,
            StockPriceInfo.is_52w_high, StockPriceInfo.is_near_52w_high,
            h1, h2, h3, h4, mul_comm]

/-! ### Segments and today's input data (`ranking_excel_adapter.py`) -/

/-- The four `LAYOUT_MAP` keys: (market × investor type) segments, in the
fixed layout order of the adapter. -/
inductive SegKey where
  | kospiForeigner
  | kospiInstitutions
  | kosdaqForeigner
  | kosdaqInstitutions
deriving DecidableEq

/-- The fixed segment order used when iterating `LAYOUT_MAP` (and, for the
ticker map, the per-segment data dict; the caller builds that dict in the
same segment order). -/
def segKeys : List SegKey :=
  [.kospiForeigner, .kospiInstitutions, .kosdaqForeigner, .kosdaqInstitutions]

/-- `TOP_N = 30`. -/
def TOP_N : Nat := 30

/-- One row of a segment's input DataFrame: display name (`종목명`), ticker
(`종목코드`, already stringified) and net-buy amount. -/
structure DFRow where
  name : Name
  ticker : Name
  value : Int
deriving DecidableEq

/-- A segment's input DataFrame, already sorted and truncated upstream. -/
abbrev DF := List DFRow

/-- `data_map`: per-segment optional DataFrame (`None` = missing segment). -/
structure DataMap where
  kf : Option DF
  ki : Option DF
  qf : Option DF
  qi : Option DF
deriving DecidableEq

/-- `data_map.get(key)`. -/
def DataMap.get (dm : DataMap) : SegKey → Option DF
  | .kospiForeigner => dm.kf
  | .kospiInstitutions => dm.ki
  | .kosdaqForeigner => dm.qf
  | .kosdaqInstitutions => dm.qi

/-- Replace one segment's entry of the data map. -/
def DataMap.set (dm : DataMap) (key : SegKey) (df : Option DF) : DataMap :=
  match key with
  | .kospiForeigner => { dm with kf := df }
  | .kospiInstitutions => { dm with ki := df }
  | .kosdaqForeigner => { dm with qf := df }
  | .kosdaqInstitutions => { dm with qi := df }

/-- `common_stocks`: per market (`'KOSPI'`/`'KOSDAQ'`), the optional set of
names listed by more than one investor-type segment of that market today
(computed by the caller; a dict, so a market key may be absent). -/
structure CommonStocks where
  kospi : Option (List Name)
  kosdaq : Option (List Name)
deriving DecidableEq

/-- `common_stocks.get(layout['market'])`, via each segment's market. -/
def marketCommon (cs : CommonStocks) : SegKey → Option (List Name)
  | .kospiForeigner => cs.kospi
  | .kospiInstitutions => cs.kospi
  | .kosdaqForeigner => cs.kosdaq
  | .kosdaqInstitutions => cs.kosdaq

/-! ### Worksheets and the workbook -/

/-- In a rank-change cell the adapter writes `✨` (new entry), `-` (unchanged),
a red `▲n` (rose, bold when the rise is ≥ 15), or a blue `▼n` (fell). -/
inductive RankCell where
  | newEntry
  | dash
  | upBig (n : Nat)
  | up (n : Nat)
  | down (n : Nat)
deriving DecidableEq

/-- The cells of one layout section of a sheet that the adapter ever reads or
writes: row `i` of the lists is spreadsheet row `start_row + i`.  A written
sheet carries `pasted_count` entries per list; absent rows read as `None`. -/
structure SectionData where
  stockCells : List (Option Name)
  valueCells : List Int
  rankCells : List RankCell
  fills : List (Option String)
  highCells : List (Option (String × String))
deriving DecidableEq

/-- A section with nothing written (all cells cleared). -/
def emptySection : SectionData := ⟨[], [], [], [], []⟩

/-- The four layout sections of one sheet. -/
structure SheetData where
  kf : SectionData
  ki : SectionData
  qf : SectionData
  qi : SectionData
deriving DecidableEq

/-- Select one layout section. -/
def SheetData.sec (sd : SheetData) : SegKey → SectionData
  | .kospiForeigner => sd.kf
  | .kospiInstitutions => sd.ki
  | .kosdaqForeigner => sd.qf
  | .kosdaqInstitutions => sd.qi

/-- One worksheet: its title (`'%m%d'`-formatted date, or `'template'`) and
the cells the adapter touches. -/
structure Sheet where
  title : String
  data : SheetData
deriving DecidableEq

/-- The workbook: its ordered sheet list (oldest first, appended at the end). -/
abbrev Workbook := List Sheet

/-- Read the cell at row offset `i` of a section's stock column; rows beyond
what was written are empty (`None`), as are rows that never held a string. -/
def cellAt (cells : List (Option Name)) (i : Nat) : Option Name :=
  (cells.getD i none)

/-- The report date, as consumed by the adapter: month and day. -/
structure RDate where
  month : Nat
  day : Nat
deriving DecidableEq

/-- Zero-padded two-digit rendering used by `strftime('%m%d')`. -/
def two_digits (n : Nat) : String :=
  if n < 10 then "0" ++ toString n else toString n

/-- `report_date.strftime('%m%d')`, the title of the day's sheet. -/
def sheet_title (d : RDate) : String := two_digits d.month ++ two_digits d.day

/-! ### History readers -/

/-- `_parse_previous_rankings` inner loop for one section of the last sheet:
for each of the 30 rows holding a string, strip the pairing marker and map the
cleaned name to its 1-based rank (a later duplicate overwrites an earlier). -/
def rank_map_of (cells : List (Option Name)) : List (Name × Nat) :=
  (List.range TOP_N).foldl
    (fun m i =>
      match cellAt cells i with
      | some nm => dinsert m (cleanName nm) (i + 1)
      | none => m)
    []

/-- `_parse_previous_rankings`: no sheets, or only the `template` sheet, means
no previous data; otherwise parse the last sheet (the immediately preceding
snapshot) section by section. -/
def parse_previous_rankings (book : Workbook) (key : SegKey) : List (Name × Nat) :=
  if book.isEmpty ∨ (book.length = 1 ∧ book.any (fun sh => sh.title = "template")) then []
  else
    match book.getLast? with
    | none => []
    | some last => rank_map_of ((last.data.sec key).stockCells)

/-- The non-`template` sheets, in workbook (date) order. -/
def valid_sheets (book : Workbook) : List Sheet :=
  book.filter (fun sh => sh.title ≠ "template")

/-- The set of cleaned stock names appearing in one section of one sheet
(`sheet_stocks` in `_analyze_consecutive_streaks`). -/
def read_names (sh : Sheet) (key : SegKey) : List Name :=
  (List.range TOP_N).filterMap
    (fun i => (cellAt ((sh.data.sec key).stockCells) i).map cleanName)

/-- The per-section history list `history_dfs`: most recent sheet first,
at most 5 sheets deep. -/
def history_of (book : Workbook) (key : SegKey) : List (List Name) :=
  ((valid_sheets book).reverse.take 5).map (fun sh => read_names sh key)

/-- Walking backward from the day before yesterday: the number of further
consecutive history sets containing `stock` (the `for past_stocks in
history_dfs[1:]` loop, which breaks at the first absence). -/
def consecCount (stock : Name) : List (List Name) → Nat
  | [] => 0
  | s :: rest => if stock ∈ s then 1 + consecCount stock rest else 0

/-- The streak dict for one section: every stock of yesterday's set maps to
1 (for yesterday) plus its consecutive earlier run; empty history gives an
empty dict. -/
def streakMapCore (history : List (List Name)) : List (Name × Nat) :=
  match history with
  | [] => []
  | yesterday :: rest => yesterday.map (fun stock => (stock, 1 + consecCount stock rest))

/-- `_analyze_consecutive_streaks`: an all-`template` (or empty) workbook
yields an empty dict for every section; otherwise each section's streak dict
is computed from its (≤ 5 deep) history. -/
def analyze_consecutive_streaks (book : Workbook) (key : SegKey) : List (Name × Nat) :=
  if (valid_sheets book).isEmpty then [] else streakMapCore (history_of book key)

/-! ### Ticker map and the new sheet's content -/

/-- Leading/trailing-space stripping of a stringified ticker. -/
def stripSpaces (t : Name) : Name :=
  (((t.dropWhile (fun c => c = ' ')).reverse).dropWhile (fun c => c = ' ')).reverse

/-- `str(ticker).strip().zfill(6)`: left-pad the ticker with `'0'` to six
characters (numeric tickers reach this model already stringified). -/
def normalize_ticker (t : Name) : Name :=
  List.replicate (6 - (stripSpaces t).length) '0' ++ stripSpaces t

/-- The rows of one DataFrame folded into the ticker dict: rows with an empty
(falsy) name or ticker are skipped. -/
def ticker_entries (df : DF) (m : List (Name × Name)) : List (Name × Name) :=
  df.foldl
    (fun m' r =>
      if r.name ≠ [] ∧ r.ticker ≠ [] then dinsert m' r.name (normalize_ticker r.ticker)
      else m')
    m

/-- `_create_ticker_map`: fold every present, non-empty segment DataFrame
(in the fixed segment order) into one name → 6-digit-ticker dict. -/
def create_ticker_map (dm : DataMap) : List (Name × Name) :=
  segKeys.foldl
    (fun m key =>
      match dm.get key with
      | none => m
      | some df => if df.isEmpty then m else ticker_entries df m)
    []

/-- Lines 437-443 of the adapter: look today's cell value up in the previous
section ranks *as is* (no suffix stripping); a truthy (non-zero) previous rank
gives `diff = prev_rank - current_rank`, otherwise `diff = None`. -/
def rank_diff (prevMap : List (Name × Nat)) (nm : Name) (cur : Nat) : Option Int :=
  match dictGet prevMap nm with
  | some p => if p ≠ 0 then some ((p : Int) - (cur : Int)) else none
  | none => none

/-- `_write_rank_change`: `None` ⇒ `✨`; `diff >= 15` ⇒ big red `▲`; `diff > 0`
⇒ `▲`; `diff < 0` ⇒ `▼`; else `-`. -/
def write_rank_change : Option Int → RankCell
  | none => .newEntry
  | some d =>
    if 15 ≤ d then .upBig d.natAbs
    else if 0 < d then .up d.natAbs
    else if d < 0 then .down d.natAbs
    else .dash

/-- The rank-change column for the pasted rows, in order. -/
def rank_cells (prevMap : List (Name × Nat)) (names : List Name) : List RankCell :=
  names.enum.map (fun p => write_rank_change (rank_diff prevMap p.2 (p.1 + 1)))

/-- Line 450: today's displayed streak for a pasted cell value: the section
streak dict (keyed by cleaned names, holding yesterday-ending streaks) looked
up at the cleaned name, defaulting to 0, plus 1 for today. -/
def displayed_streak (secStreaks : List (Name × Nat)) (nm : Name) : Nat :=
  (dictGet secStreaks (cleanName nm)).getD 0 + 1

/-- Lines 452-468: the highlight colour key for a displayed streak (all four
keys are present in `ExcelFormatter.COLORS`, so the fill is applied exactly
when a key is chosen). -/
def streak_fill (c : Nat) : Option String :=
  if 5 ≤ c then some "red"
  else if c = 4 then some "orange"
  else if c = 3 then some "yellow"
  else if c = 2 then some "green"
  else none

/-- Lines 471-487: the indicator column.  An empty (falsy) indicator dict
skips the whole loop; otherwise each row's cleaned cell value is looked up and
the cell is written only when both text and colour are present (they are
non-empty literals whenever present). -/
def high_cells (indics : List (Name × (Option String × Option String)))
    (names : List Name) : List (Option (String × String)) :=
  if indics.isEmpty then List.replicate names.length none
  else
    names.map (fun nm =>
      match dictGet indics (cleanName nm) with
      | some (some t, some c) => some (t, c)
      | _ => none)

/-- Lines 489-503: append the pairing marker to a (truthy) cell value when the
raw value is in the market's common set and, double-checking, so is its
cleaned form; the marked value is `clean + ' (쌍)'`. -/
def mark_common (common : Option (List Name)) (nm : Name) : Name :=
  match common with
  | none => nm
  | some s => if nm ≠ [] ∧ nm ∈ s ∧ cleanName nm ∈ s then markPair (cleanName nm) else nm

/-- `Modelled from the spec: ExcelSheetBuilder.paste_ranking_data` (the
`excel_sheet_builder` module is not in the sources).  Per the specification's
Renderer contract it writes the first `TOP_N` entries' display names and
amounts into the section's stock and value columns, top rank first, and
returns the pasted row count; the subsequent loops of
`_paste_data_and_apply_format` read those names back from the cells. -/
def pasted_names (df : DF) : List Name := (df.take TOP_N).map (fun r => r.name)

/-- `_paste_data_and_apply_format` for one section: a missing or empty
DataFrame leaves the freshly cleared section untouched; otherwise paste the
rows, then annotate rank changes and streak fills, then the indicator column,
then apply the pairing markers to the stock cells. -/
def process_section (df? : Option DF) (common : Option (List Name))
    (prevMap : List (Name × Nat)) (indics : List (Name × (Option String × Option String)))
    (secStreaks : List (Name × Nat)) : SectionData :=
  match df? with
  | none => emptySection
  | some df =>
    if df.isEmpty then emptySection
    else
      let names := pasted_names df
      { stockCells := names.map (fun nm => some (mark_common common nm))
        valueCells := (df.take TOP_N).map (fun r => r.value)
        rankCells := rank_cells prevMap names
        fills := names.map (fun nm => streak_fill (displayed_streak secStreaks nm))
        highCells := high_cells indics names }

/-- `_update_sheet_content` on the freshly cleared copy: build all four
sections of the day's sheet. -/
def build_sheet_data (dm : DataMap) (cs : CommonStocks)
    (prev : SegKey → List (Name × Nat))
    (indics : List (Name × (Option String × Option String)))
    (strk : SegKey → List (Name × Nat)) : SheetData :=
  { kf := process_section (dm.get .kospiForeigner) (marketCommon cs .kospiForeigner)
      (prev .kospiForeigner) indics (strk .kospiForeigner)
    ki := process_section (dm.get .kospiInstitutions) (marketCommon cs .kospiInstitutions)
      (prev .kospiInstitutions) indics (strk .kospiInstitutions)
    qf := process_section (dm.get .kosdaqForeigner) (marketCommon cs .kosdaqForeigner)
      (prev .kosdaqForeigner) indics (strk .kosdaqForeigner)
    qi := process_section (dm.get .kosdaqInstitutions) (marketCommon cs .kosdaqInstitutions)
      (prev .kosdaqInstitutions) indics (strk .kosdaqInstitutions) }

/-! ### The update cycle (`update_report`) -/

/-- `_create_new_sheet`, first half: delete an existing same-titled sheet,
then pick a copy source — the `template` sheet if present, else the last
remaining sheet; an empty remainder makes the copy raise, which
`_create_new_sheet` turns into a `None` (and `update_report` into failure).
The copied cells are immediately cleared by `_clear_data_area`, so only the
remaining sheet list matters. -/
def create_book_base (book : Workbook) (title : String) : Option Workbook :=
  let b := book.filter (fun sh => sh.title ≠ title)
  if b.isEmpty then none else some b

/-- The pure content pipeline of `update_report` on a loaded workbook:
previous ranks and streaks are parsed from the workbook *as loaded* (before
the same-titled sheet, if any, is deleted); the indicator analysis runs only
when a price port was configured; the new sheet is appended at the end and
the `template` sheet is then removed. -/
def updateCore (book : Workbook) (oracle : Name → PriceResult) (hasPrice : Bool)
    (d : RDate) (dm : DataMap) (cs : CommonStocks) : Option Workbook :=
  let prev := parse_previous_rankings book
  let indics :=
    if hasPrice then analyze_high_price_indicators oracle (create_ticker_map dm) else []
  let strk := analyze_consecutive_streaks book
  match create_book_base book (sheet_title d) with
  | none => none
  | some base =>
    let newSheet : Sheet := ⟨sheet_title d, build_sheet_data dm cs prev indics strk⟩
    some ((base ++ [newSheet]).filter (fun sh => sh.title ≠ "template"))

/-- One target storage: whether its `save_workbook` succeeds, and the file it
currently holds. -/
structure Storage where
  saveOk : Bool
  content : Option Workbook
deriving DecidableEq

/-- `_save_workbook`: save to every target storage in order; a failing storage
keeps its previous content; the call succeeds only if all storages did. -/
def save_workbook (book : Workbook) (targets : List Storage) : List Storage × Bool :=
  (targets.map (fun s => if s.saveOk then { s with content := some book } else s),
    targets.all (fun s => s.saveOk))

/-- `update_report`: a failed workbook load (`loaded = none`) or a failed
sheet creation returns `False` touching no storage; otherwise the new
workbook is saved to every target storage. -/
def update_report (loaded : Option Workbook) (targets : List Storage)
    (oracle : Name → PriceResult) (hasPrice : Bool) (d : RDate) (dm : DataMap)
    (cs : CommonStocks) : List Storage × Bool :=
  match loaded with
  | none => (targets, false)
  | some book =>
    match updateCore book oracle hasPrice d dm cs with
    | none => (targets, false)
    | some finalBook => save_workbook finalBook targets

/-! ### Dictionary and streak lemmas -/

/-- Looking up a key-preserving mapped dict is mapping the lookup. -/
theorem dictGet_map_val {β γ : Type} (g : β → γ) (l : List (Name × β)) (k : Name) :
    dictGet (l.map (fun p => (p.1, g p.2))) k = (dictGet l k).map g := by
  induction l with
  | nil => rfl
  | cons p rest ih =>
    simp only [List.map_cons, dictGet, ih]
    cases dictGet rest k with
    | some v => rfl
    | none =>
      by_cases h : p.1 = k <;> simp [h]

/-- Looking up a dict built from a key list by a function: any occurrence of
the key yields the same value, so membership decides the lookup. -/
theorem dictGet_map_self {β : Type} (f : Name → β) (l : List Name) (k : Name) :
    dictGet (l.map (fun nm => (nm, f nm))) k = if k ∈ l then some (f k) else none := by
  induction l with
  | nil => rfl
  | cons nm rest ih =>
    simp only [List.map_cons, dictGet, ih]
    by_cases hm : k ∈ rest
    · simp [hm]
    · by_cases he : nm = k
      · subst he
        simp [hm]
      · have hk : ¬k = nm := fun h => he h.symm
        simp [hm, he, hk]

/-- The backward walk counts the longest all-containing prefix. -/
theorem consecCount_eq_takeWhile (s : Name) (l : List (List Name)) :
    consecCount s l = (l.takeWhile (fun t => decide (s ∈ t))).length := by
  induction l with
  | nil => rfl
  | cons t rest ih =>
    by_cases h : s ∈ t
    · simp [consecCount, List.takeWhile, h, ih]
      omega
    · simp [consecCount, List.takeWhile, h]

/-- Truncating the history truncates the backward walk. -/
theorem consecCount_take (s : Name) (l : List (List Name)) (n : Nat) :
    consecCount s (l.take n) = min (consecCount s l) n := by
  induction l generalizing n with
  | nil => simp [consecCount]
  | cons t rest ih =>
    cases n with
    | zero => simp [consecCount]
    | succ m =>
      by_cases h : s ∈ t
      · simp [consecCount, h, ih]
        omega
      · simp [consecCount, h]

/-- The streak dict of a history maps exactly yesterday's stocks, each to one
plus its backward walk. -/
theorem streakMapCore_get (history : List (List Name)) (s : Name) :
    dictGet (streakMapCore history) s =
      match history with
      | [] => none
      | y :: rest => if s ∈ y then some (1 + consecCount s rest) else none := by
  cases history with
  | nil => rfl
  | cons y rest => exact dictGet_map_self (fun st => 1 + consecCount st rest) y s

/-- Prior-streak value of a 5-truncated history, as a saturated run length. -/
theorem streak_take5_getD (l : List (List Name)) (s : Name) :
    (dictGet (streakMapCore (l.take 5)) s).getD 0 =
      min ((l.takeWhile (fun t => decide (s ∈ t))).length) 5 := by
  cases l with
  | nil => simp [streakMapCore, dictGet]
  | cons y rest =>
    rw [show (y :: rest).take 5 = y :: rest.take 4 from rfl]
    rw [streakMapCore_get]
    by_cases h : s ∈ y
    · simp only [h, if_pos, Option.getD_some]
      rw [consecCount_take, consecCount_eq_takeWhile]
      simp [List.takeWhile, h]
      omega
    · simp [h, List.takeWhile]

/-! ### Name-normalization lemmas -/

/-- The fuel of `cleanNameAux` is irrelevant once it covers the input. -/
theorem cleanNameAux_congr : ∀ (f g : Nat) (n : Name), n.length ≤ f → n.length ≤ g →
    cleanNameAux f n = cleanNameAux g n := by
  intro f
  induction f with
  | zero =>
    intro g n hf _
    have : n = [] := List.eq_nil_of_length_eq_zero (Nat.le_zero.mp hf)
    subst this
    cases g <;> rfl
  | succ f ih =>
    intro g n hf hg
    cases n with
    | nil => cases g <;> rfl
    | cons c rest =>
      cases g with
      | zero => simp at hg
      | succ g =>
        simp only [cleanNameAux]
        by_cases hp : pairSuffix.isPrefixOf (c :: rest)
        · simp only [hp, if_true]
          apply ih
          · simp only [List.length_drop]
            simp at hf
            omega
          · simp only [List.length_drop]
            simp at hg
            omega
        · rw [if_neg hp, if_neg hp]
          have := ih g rest (by simp at hf; omega) (by simp at hg; omega)
          rw [this]

/-- Unfolding rule for `cleanName` on a nonempty name. -/
theorem cleanName_cons (c : Char) (rest : Name) :
    cleanName (c :: rest) =
      if pairSuffix.isPrefixOf (c :: rest) then cleanName (rest.drop 3)
      else c :: cleanName rest := by
  show cleanNameAux (rest.length + 1) (c :: rest) = _
  simp only [cleanNameAux]
  by_cases hp : pairSuffix.isPrefixOf (c :: rest)
  · rw [if_pos hp, if_pos hp]
    exact cleanNameAux_congr _ _ _ (by simp [List.length_drop]) le_rfl
  · rw [if_neg hp, if_neg hp]
    rfl

/-- The pairing marker has no border: if it does not start at the head of a
nonempty `n`, it does not start at the head of `n ++ pairSuffix` either (an
occurrence cannot straddle the seam at position 0). -/
theorem pairSuffix_prefix_append : ∀ (n : Name), n ≠ [] →
    pairSuffix.isPrefixOf n = false → pairSuffix.isPrefixOf (n ++ pairSuffix) = false := by
  intro n hne hnp
  match n with
  | [] => exact absurd rfl hne
  | [a] => simp [pairSuffix, List.isPrefixOf]
  | [a, b] => simp [pairSuffix, List.isPrefixOf]
  | [a, b, c] => simp [pairSuffix, List.isPrefixOf]
  | a :: b :: c :: d :: t =>
    simp only [pairSuffix, List.isPrefixOf, List.cons_append] at hnp ⊢
    simpa using hnp

/-- Marker-free names are fixed points of the normalizer. -/
theorem cleanName_of_not_hasPair (n : Name) (h : hasPair n = false) : cleanName n = n := by
  induction n with
  | nil => rfl
  | cons c rest ih =>
    simp only [hasPair, Bool.or_eq_false_iff] at h
    rw [cleanName_cons, if_neg (by simp [h.1]), ih h.2]

/-- Stripping after marking recovers a marker-free base name. -/
theorem cleanName_append_suffix (n : Name) (h : hasPair n = false) :
    cleanName (n ++ pairSuffix) = n := by
  induction n with
  | nil => decide
  | cons c rest ih =>
    simp only [hasPair, Bool.or_eq_false_iff] at h
    have hp : pairSuffix.isPrefixOf ((c :: rest) ++ pairSuffix) = false :=
      pairSuffix_prefix_append (c :: rest) (by simp) h.1
    rw [List.cons_append] at hp ⊢
    rw [cleanName_cons, if_neg (by simp [hp]), ih h.2]

/-! ### Derived definitions used by the claims -/

/-- Today's displayed streak for a cell value `nm` of section `key`, as
computed by `update_report` from the loaded workbook. -/
def displayed_streak_of (book : Workbook) (key : SegKey) (nm : Name) : Nat :=
  displayed_streak (analyze_consecutive_streaks book key) nm

/-- The length of a name's consecutive-presence run over the *whole* prior
history of a section, newest first (the `M` of the specification). -/
def run_len (book : Workbook) (key : SegKey) (c : Name) : Nat :=
  (((valid_sheets book).reverse.map (fun sh => read_names sh key)).takeWhile
    (fun t => decide (c ∈ t))).length

/-! ### C1 -/

/-- **C1.** For every price record with positive close, 52-week high and
all-time high, the milestone classifier returns exactly one of the five
indicators, chosen by the strict priority chain of the specification
(all-time-high ≥ near-all-time-high ≥ week52-high ≥ near-week52-high ≥ none,
with the 0.90 nearness threshold), and an input whose close equals a high is
never classified as `near` that same high. -/
theorem C1_milestone_priority (p : StockPriceInfo)
    (_hc : 0 < p.close_price) (_h52 : 0 < p.high_52w) (_hat : 0 < p.all_time_high) :
    get_indicator_display p = milestone_spec_chain p
    ∧ get_indicator_display p ∈
        [(some "역·신", some "all_time_high"),
         (some "역·근", some "near_all_time_high"),
         (some "52·신", some "week_52_high"),
         (some "52·근", some "near_52w_high"),
         ((none : Option String), (none : Option String))]
    ∧ (p.close_price = p.all_time_high →
        get_indicator_display p ≠ (some "역·근", some "near_all_time_high"))
    ∧ (p.close_price = p.high_52w →
        get_indicator_display p ≠ (some "52·근", some "near_52w_high")) := by
  refine ⟨get_indicator_display_eq_spec_chain p, ?_, ?_, ?_⟩
  · rw [get_indicator_display_eq_spec_chain]
    unfold milestone_spec_chain
    split_ifs <;> simp
  · intro h
    rw [get_indicator_display_eq_spec_chain]
    unfold milestone_spec_chain
    split_ifs with h1 h2 h3 h4 <;> simp_all
  · intro h
    rw [get_indicator_display_eq_spec_chain]
    unfold milestone_spec_chain
    split_ifs with h1 h2 h3 h4 <;> simp_all

/-- Concrete instantiation of C1 (close 95 = 52-week high, all-time high 100:
the 0.95 ≥ 0.90 nearness beats the exact 52-week high, and the exact 52-week
high is not reported as near-52-week). -/
theorem C1_milestone_priority_witness :
    (0 : ℚ) < 95 ∧
      (get_indicator_display ⟨['A'], 95, 95, 100⟩ =
          milestone_spec_chain ⟨['A'], 95, 95, 100⟩
        ∧ get_indicator_display ⟨['A'], 95, 95, 100⟩ ∈
            [(some "역·신", some "all_time_high"),
             (some "역·근", some "near_all_time_high"),
             (some "52·신", some "week_52_high"),
             (some "52·근", some "near_52w_high"),
             ((none : Option String), (none : Option String))]
        ∧ ((95 : ℚ) = 100 →
            get_indicator_display ⟨['A'], 95, 95, 100⟩ ≠
              (some "역·근", some "near_all_time_high"))
        ∧ ((95 : ℚ) = 95 →
            get_indicator_display ⟨['A'], 95, 95, 100⟩ ≠
              (some "52·근", some "near_52w_high"))) :=
  ⟨by norm_num,
    C1_milestone_priority ⟨['A'], 95, 95, 100⟩ (by norm_num) (by norm_num) (by norm_num)⟩

/-! ### C2 -/

/-- **C2.** The streak analyzer's per-section output maps an entity to a count
iff the entity is in the most recent prior set; the count is 1 plus the number
of immediately earlier consecutive sets containing it (stopping at the first
absence or the end of history); empty history yields an empty output; and a
gap in presence restarts the count at 1. -/
theorem C2_streak_analyzer (history : List (List Name)) (stock : Name) :
    ((dictGet (streakMapCore history) stock).isSome ↔
      ∃ y rest, history = y :: rest ∧ stock ∈ y)
    ∧ (∀ y rest, history = y :: rest → stock ∈ y →
        dictGet (streakMapCore history) stock =
          some (1 + (rest.takeWhile (fun t => decide (stock ∈ t))).length))
    ∧ streakMapCore [] = []
    ∧ (∀ y s2 rest, history = y :: s2 :: rest → stock ∈ y → stock ∉ s2 →
        dictGet (streakMapCore history) stock = some 1) := by
  refine ⟨?_, ?_, rfl, ?_⟩
  · rw [streakMapCore_get]
    cases history with
    | nil => simp
    | cons y rest =>
      by_cases h : stock ∈ y <;> simp [h]
  · intro y rest hh hm
    subst hh
    rw [streakMapCore_get]
    show (if stock ∈ y then some (1 + consecCount stock rest) else none) = _
    rw [if_pos hm, consecCount_eq_takeWhile]
  · intro y s2 rest hh hm ha
    subst hh
    rw [streakMapCore_get]
    show (if stock ∈ y then some (1 + consecCount stock (s2 :: rest)) else none) = _
    rw [if_pos hm]
    simp [consecCount, ha]

/-- Concrete instantiation of C2: history `[{A}, {}, {A}]` (present yesterday,
absent the day before, present again earlier) gives streak 1 for `A`. -/
theorem C2_streak_analyzer_witness :
    dictGet (streakMapCore [[['A']], [], [['A']]]) ['A'] = some 1 :=
  (C2_streak_analyzer [[['A']], [], [['A']]] ['A']).2.2.2 [['A']] [] [[['A']]] rfl
    (by decide) (by decide)

/-! ### C3 -/

/-- Section data whose stock column holds exactly the single name `A`. -/
def secA : SectionData := ⟨[some ['A']], [], [], [], []⟩

/-- A sheet whose KOSPI-foreigner section lists exactly `A`. -/
def sheetDataA : SheetData := ⟨secA, emptySection, emptySection, emptySection⟩

/-- Five prior daily sheets, each listing `A` in the KOSPI-foreigner section. -/
def book5 : Workbook :=
  [⟨"0101", sheetDataA⟩, ⟨"0102", sheetDataA⟩, ⟨"0103", sheetDataA⟩,
   ⟨"0104", sheetDataA⟩, ⟨"0105", sheetDataA⟩]

/-- **C3, counterexample.** `A` appeared in the immediately preceding `M = 5`
consecutive snapshots (the whole history) and appears today, so the claim
(`M+1` displayed, capped by `K = 5`) predicts a displayed streak of
`min (5+1) 5 = 5`; the code displays 6 (the cap applies to the *prior* streak,
yielding `min M 5 + 1`, which can reach 6). -/
theorem C3_counterexample :
    run_len book5 SegKey.kospiForeigner (cleanName ['A']) = 5
    ∧ displayed_streak_of book5 SegKey.kospiForeigner ['A'] = 6
    ∧ displayed_streak_of book5 SegKey.kospiForeigner ['A'] ≠ min (5 + 1) 5 := by
  refine ⟨by decide, by decide, by decide⟩

/-- **C3, amended.** For every entity present today: its displayed streak is
the analyzer's prior streak (0 when the entity has none) plus 1; and it equals
`min M 5 + 1` — i.e. `M + 1` capped by `K + 1 = 6`, not by `K` — where `M` is
the entity's consecutive-presence run length over the prior snapshots (so an
entity absent from yesterday's snapshot has `M = 0` and displayed streak
exactly 1). -/
theorem C3_displayed_streak (book : Workbook) (key : SegKey) (nm : Name) :
    displayed_streak_of book key nm =
      (dictGet (analyze_consecutive_streaks book key) (cleanName nm)).getD 0 + 1
    ∧ displayed_streak_of book key nm = min (run_len book key (cleanName nm)) 5 + 1 := by
  constructor
  · rfl
  · unfold displayed_streak_of displayed_streak analyze_consecutive_streaks
    by_cases h : (valid_sheets book).isEmpty
    · rw [if_pos h]
      unfold run_len
      have : valid_sheets book = [] := List.isEmpty_iff.mp h
      simp [this, dictGet]
    · rw [if_neg h]
      unfold history_of run_len
      rw [List.map_take, streak_take5_getD]

/-! ### C6 -/

/-- A display name on which the marker round-trip fails: `' (쌍 (쌍))'`. -/
def badName : Name := [' ', '(', '쌍', ' ', '(', '쌍', ')', ')']

/-- **C6, counterexample.** Normalizing `' (쌍 (쌍))'` removes the one marker
occurrence but leaves `' (쌍)'` (a marker spanning the seam of the removal);
appending the marker and normalizing again erases everything, so
`normalize (mark (normalize n)) ≠ normalize n` for this display name. -/
theorem C6_counterexample :
    cleanName (markPair (cleanName badName)) ≠ cleanName badName := by decide

/-- **C6, amended.** For every display name whose *normalized* form is free of
the pairing marker (every realistic name; only names still containing the
marker after normalization escape), normalize→mark→normalize is the identity
on the normalized name.  Moreover the history side is normalized throughout —
every name a history set or the previous-rank map is built from is a
`cleanName`-image, the streak probe depends only on the probe's normalized
form — and the pairing marker influences only the rendered stock cells, never
the rank, fill or indicator annotations. -/
theorem C6_normalization (n : Name) (h : hasPair (cleanName n) = false) :
    cleanName (markPair (cleanName n)) = cleanName n
    ∧ (∀ (sh : Sheet) (key : SegKey) (nm : Name), nm ∈ read_names sh key →
        ∃ i raw, cellAt ((sh.data.sec key).stockCells) i = some raw ∧ nm = cleanName raw)
    ∧ (∀ (m : List (Name × Nat)) (nm1 nm2 : Name), cleanName nm1 = cleanName nm2 →
        displayed_streak m nm1 = displayed_streak m nm2)
    ∧ (∀ (df : DF) (common : Option (List Name)) (prevMap : List (Name × Nat))
        (indics : List (Name × (Option String × Option String)))
        (strk : List (Name × Nat)),
        (process_section (some df) common prevMap indics strk).rankCells =
          (process_section (some df) none prevMap indics strk).rankCells
        ∧ (process_section (some df) common prevMap indics strk).fills =
          (process_section (some df) none prevMap indics strk).fills
        ∧ (process_section (some df) common prevMap indics strk).highCells =
          (process_section (some df) none prevMap indics strk).highCells) := by
  refine ⟨cleanName_append_suffix (cleanName n) h, ?_, ?_, ?_⟩
  · intro sh key nm hmem
    unfold read_names at hmem
    rw [List.mem_filterMap] at hmem
    obtain ⟨i, _, hf⟩ := hmem
    rw [Option.map_eq_some'] at hf
    obtain ⟨raw, hraw, hcl⟩ := hf
    exact ⟨i, raw, hraw, hcl.symm⟩
  · intro m nm1 nm2 hcl
    unfold displayed_streak
    rw [hcl]
  · intro df common prevMap indics strk
    unfold process_section
    by_cases hd : df.isEmpty <;> simp [hd]

/-- Concrete instantiation of C6 at the marker-free name `'A'`. -/
theorem C6_normalization_witness :
    hasPair (cleanName ['A']) = false ∧
      cleanName (markPair (cleanName ['A'])) = cleanName ['A'] :=
  ⟨by decide, (C6_normalization ['A'] (by decide)).1⟩

/-! ### C4 -/

/-- Membership under a successful dict lookup. -/
theorem dictGet_mem {β : Type} (m : List (Name × β)) (k : Name) (v : β)
    (h : dictGet m k = some v) : (k, v) ∈ m := by
  induction m with
  | nil => simp [dictGet] at h
  | cons p rest ih =>
    rw [dictGet] at h
    cases hr : dictGet rest k with
    | some w =>
      rw [hr] at h
      cases h
      exact List.mem_cons_of_mem _ (ih hr)
    | none =>
      rw [hr] at h
      rcases p with ⟨k1, v1⟩
      by_cases hk : k1 = k
      · subst hk
        rw [if_pos rfl] at h
        cases h
        exact List.mem_cons_self _ _
      · rw [if_neg hk] at h
        cases h

/-- Indexing the rank-change column (enumeration helper). -/
theorem rank_cells_enumFrom_get? (prevMap : List (Name × Nat)) :
    ∀ (names : List Name) (s i : Nat),
      (((names.enumFrom s).map
        (fun p => write_rank_change (rank_diff prevMap p.2 (p.1 + 1)))).get? i) =
        (names.get? i).map (fun nm => write_rank_change (rank_diff prevMap nm (s + i + 1))) := by
  intro names
  induction names with
  | nil => intro s i; simp
  | cons nm rest ih =>
    intro s i
    cases i with
    | zero => simp [List.enumFrom]
    | succ j =>
      simp only [List.enumFrom, List.map_cons, List.get?]
      rw [ih (s + 1) j]
      rw [show s + 1 + j + 1 = s + (j + 1) + 1 from by omega]

/-- The last-sheet content of a workbook with one `X` cell. -/
def bookX : Workbook :=
  [⟨"0101", ⟨⟨[some ['X']], [], [], [], []⟩, emptySection, emptySection, emptySection⟩⟩]

/-- Today's first entry name, already carrying a pairing marker: `'X (쌍)'`. -/
def xMarked : Name := ['X'] ++ pairSuffix

/-- **C4, counterexample.** Yesterday's sheet ranks `X` first, and today's
first entry is the marked name `'X (쌍)'`.  The normalized entity has previous
rank 1 and current rank 1, so the claim demands the delta annotation `0`
(`-`); the code looks the *raw* cell value up, misses, and writes `✨`
(NewEntry). -/
theorem C4_counterexample :
    dictGet (parse_previous_rankings bookX SegKey.kospiForeigner) (cleanName xMarked) = some 1
    ∧ rank_cells (parse_previous_rankings bookX SegKey.kospiForeigner) [xMarked] =
        [RankCell.newEntry]
    ∧ RankCell.newEntry ≠ write_rank_change (some ((1 : Int) - 1)) := by
  refine ⟨by decide, by decide, by decide⟩

/-- **C4, amended.** The previous-rank lookup uses the entity's name exactly
as pasted, *without* suffix normalization; for an entity whose today-name is
marker-free (so that raw and normalized name coincide — the normal case,
since input rows come unmarked) the annotation at 1-based position `i` is the
signed delta `p - i` whenever the normalized name has rank `p` in the map and
`NewEntry` otherwise.  The map itself is derived from the single most recent
prior sheet only: parsing any workbook ending in a non-`template` sheet reads
just that sheet, so deeper history cannot prevent `NewEntry`. -/
theorem C4_rank_delta (prevMap : List (Name × Nat)) (names : List Name) (i : Nat)
    (hv : ∀ p ∈ prevMap, 1 ≤ p.2)
    (hc : ∀ nm ∈ names, cleanName nm = nm) :
    (rank_cells prevMap names).get? i =
      (names.get? i).map (fun nm =>
        match dictGet prevMap (cleanName nm) with
        | some p => write_rank_change (some ((p : Int) - ((i : Int) + 1)))
        | none => RankCell.newEntry)
    ∧ (∀ (b : Workbook) (sh : Sheet) (key : SegKey), sh.title ≠ "template" →
        parse_previous_rankings (b ++ [sh]) key =
          rank_map_of ((sh.data.sec key).stockCells)) := by
  constructor
  · unfold rank_cells List.enum
    rw [rank_cells_enumFrom_get? prevMap names 0 i]
    cases hnm : names.get? i with
    | none => rfl
    | some nm =>
      have hcn : cleanName nm = nm := hc nm (List.get?_mem hnm)
      simp only [Option.map_some']
      rw [hcn]
      cases hdg : dictGet prevMap nm with
      | none => simp [rank_diff, hdg, write_rank_change, Nat.zero_add]
      | some p =>
        have hp : 1 ≤ p := hv (nm, p) (dictGet_mem prevMap nm p hdg)
        simp only [rank_diff, hdg]
        rw [if_pos (by omega)]
        have harg : ((p : Int) - ((0 + i + 1 : Nat) : Int)) = (p : Int) - ((i : Int) + 1) := by
          push_cast
          ring
        rw [harg]
  · intro b sh key ht
    unfold parse_previous_rankings
    rw [if_neg, List.getLast?_concat]
    intro hcond
    rcases hcond with hemp | ⟨hlen, hany⟩
    · simp at hemp
    · have hb : b = [] := by
        rw [List.length_append] at hlen
        simpa using hlen
      subst hb
      simp at hany
      exact ht hany

/-- Concrete instantiation of C4 (marker-free today-name `X`, previous rank 1,
current rank 1 ⇒ delta annotation `-`). -/
theorem C4_rank_delta_witness :
    (∀ p ∈ [((['X'] : Name), 1)], 1 ≤ p.2) ∧
      (rank_cells [(['X'], 1)] [['X']]).get? 0 =
        ((([['X']] : List Name).get? 0).map fun nm =>
          match dictGet [(['X'], 1)] (cleanName nm) with
          | some p => write_rank_change (some ((p : Int) - ((0 : Int) + 1)))
          | none => RankCell.newEntry) :=
  ⟨by decide, (C4_rank_delta [(['X'], 1)] [['X']] 0 (by decide) (by decide)).1⟩

/-! ### C7 -/

/-- **C7.** Every entity of the ticker map receives exactly one entry of the
indicator dict (the loop never aborts); an entity whose price lookup returns
not-found or raises gets the `(None, None)` entry; and any entity whose dict
entry is `(None, None)` has nothing written in its indicator cell (no text,
no colour). -/
theorem C7_price_lookup_failure (oracle : Name → PriceResult)
    (tmap : List (Name × Name)) (nm : Name) :
    dictGet (analyze_high_price_indicators oracle tmap) nm =
      (dictGet tmap nm).map (fun t =>
        match oracle t with
        | .found info => get_indicator_display info
        | .notFound => ((none : Option String), (none : Option String))
        | .failure => ((none : Option String), (none : Option String)))
    ∧ (analyze_high_price_indicators oracle tmap).length = tmap.length
    ∧ (∀ t, dictGet tmap nm = some t →
        oracle t = PriceResult.notFound ∨ oracle t = PriceResult.failure →
        dictGet (analyze_high_price_indicators oracle tmap) nm =
          some ((none : Option String), (none : Option String)))
    ∧ (∀ (indics : List (Name × (Option String × Option String))) (names : List Name)
        (i : Nat) (nm2 : Name), names.get? i = some nm2 →
        dictGet indics (cleanName nm2) =
          some ((none : Option String), (none : Option String)) →
        (high_cells indics names).get? i = some none) := by
  have hmain :
      dictGet (analyze_high_price_indicators oracle tmap) nm =
        (dictGet tmap nm).map (fun t =>
          match oracle t with
          | .found info => get_indicator_display info
          | .notFound => ((none : Option String), (none : Option String))
          | .failure => ((none : Option String), (none : Option String))) := by
    unfold analyze_high_price_indicators
    exact dictGet_map_val
      (fun t =>
        match oracle t with
        | .found info => get_indicator_display info
        | .notFound => ((none : Option String), (none : Option String))
        | .failure => ((none : Option String), (none : Option String)))
      tmap nm
  refine ⟨hmain, by simp [analyze_high_price_indicators], ?_, ?_⟩
  · intro t ht hfail
    rw [hmain, ht]
    rcases hfail with hf | hf <;> simp [hf]
  · intro indics names i nm2 hget hdg
    have hne : indics.isEmpty = false := by
      cases indics with
      | nil => simp [dictGet] at hdg
      | cons p rest => rfl
    unfold high_cells
    rw [hne]
    simp only [Bool.false_eq_true, if_false, List.get?_map, hget, Option.map_some']
    rw [hdg]

/-- Concrete instantiation of C7: a raising oracle yields the `(None, None)`
entry for the looked-up entity. -/
theorem C7_price_lookup_failure_witness :
    dictGet
        (analyze_high_price_indicators (fun _ => PriceResult.failure)
          [(['A'], ['0', '0', '0', '0', '0', '1'])]) ['A'] =
      some ((none : Option String), (none : Option String)) :=
  (C7_price_lookup_failure (fun _ => PriceResult.failure)
      [(['A'], ['0', '0', '0', '0', '0', '1'])] ['A']).2.2.1
    ['0', '0', '0', '0', '0', '1'] (by decide) (Or.inr rfl)

/-! ### C10 -/

/-- A list mapped to a constant is a replicate (helper). -/
theorem map_const_replicate {α β : Type} (b : β) (l : List α) :
    l.map (fun _ => b) = List.replicate l.length b := by
  induction l with
  | nil => rfl
  | cons a rest ih => simp [List.replicate, ih]

/-- All-`(None, None)` indicator dicts render exactly like the empty dict. -/
theorem high_cells_const_none {γ : Type} (l : List (Name × γ))
    (names : List Name) :
    high_cells (l.map fun p => (p.1, ((none : Option String), (none : Option String))))
      names = high_cells [] names := by
  cases l with
  | nil => rfl
  | cons p rest =>
    rw [show high_cells [] names = List.replicate names.length none from rfl]
    unfold high_cells
    rw [if_neg (by simp)]
    have hval : ∀ nm : Name,
        (match
          dictGet ((p :: rest).map fun q =>
            (q.1, ((none : Option String), (none : Option String)))) (cleanName nm) with
        | some (some t, some c) => some ((t, c))
        | _ => (none : Option (String × String))) = none := by
      intro nm
      rw [dictGet_map_val (fun _ => ((none : Option String), (none : Option String)))]
      cases dictGet (p :: rest) (cleanName nm) <;> rfl
    calc names.map _ = names.map (fun _ => (none : Option (String × String))) :=
          List.map_congr_left (fun nm _ => hval nm)
      _ = List.replicate names.length none := map_const_replicate none names

/-- Indicator cells computed from the empty dict are all blank. -/
theorem process_section_no_indics (df? : Option DF) (common : Option (List Name))
    (prevMap : List (Name × Nat)) (strk : List (Name × Nat)) :
    ∀ c ∈ (process_section df? common prevMap [] strk).highCells, c = none := by
  intro c hc
  cases df? with
  | none => simp [process_section, emptySection] at hc
  | some df =>
    simp only [process_section] at hc
    by_cases hd : df.isEmpty
    · rw [if_pos hd] at hc
      simp [emptySection] at hc
    · rw [if_neg hd] at hc
      rw [show high_cells [] (pasted_names df) =
          List.replicate (pasted_names df).length none from rfl] at hc
      exact List.eq_of_mem_replicate hc

/-- Exchanging the indicator dict for one rendering identically leaves the
whole built sheet unchanged (helper). -/
theorem build_sheet_data_indics_const (dm : DataMap) (cs : CommonStocks)
    (prev strk : SegKey → List (Name × Nat)) (l : List (Name × Name)) :
    build_sheet_data dm cs prev
        (l.map fun p => (p.1, ((none : Option String), (none : Option String)))) strk =
      build_sheet_data dm cs prev [] strk := by
  have hsec : ∀ (df? : Option DF) (common : Option (List Name))
      (pm strk' : List (Name × Nat)),
      process_section df? common pm
          (l.map fun p => (p.1, ((none : Option String), (none : Option String)))) strk' =
        process_section df? common pm [] strk' := by
    intro df? common pm strk'
    cases df? with
    | none => rfl
    | some df =>
      simp only [process_section]
      by_cases hd : df.isEmpty
      · rw [if_pos hd, if_pos hd]
      · rw [if_neg hd, if_neg hd, high_cells_const_none]
  unfold build_sheet_data
  rw [hsec, hsec, hsec, hsec]

/-- `updateCore`, with its lets unfolded (definitional helper). -/
theorem updateCore_eq (book : Workbook) (oracle : Name → PriceResult) (hp : Bool)
    (d : RDate) (dm : DataMap) (cs : CommonStocks) :
    updateCore book oracle hp d dm cs =
      match create_book_base book (sheet_title d) with
      | none => none
      | some base =>
        some ((base ++ [(⟨sheet_title d,
          build_sheet_data dm cs (parse_previous_rankings book)
            (if hp then analyze_high_price_indicators oracle (create_ticker_map dm) else [])
            (analyze_consecutive_streaks book)⟩ : Sheet)]).filter
          (fun sh => sh.title ≠ "template")) := rfl

/-- A one-sheet history: yesterday's sheet lists only `A` (rank 1) in the
KOSPI-foreigner section. -/
def bookA : Workbook := [⟨"0101", sheetDataA⟩]

/-- An oracle whose every lookup reports not-found. -/
def oracleNF : Name → PriceResult := fun _ => PriceResult.notFound

/-- Today's input: KOSPI-foreigner ranks `B` first, then `A`; the other three
segments have no data. -/
def dmD : DataMap :=
  ⟨some [⟨['B'], ['1'], 5⟩, ⟨['A'], ['2'], 3⟩], none, none, none⟩

/-- No cross-listed names today. -/
def csD : CommonStocks := ⟨none, none⟩

/-- The workbook produced by running the update once on `bookA` for 01-02. -/
def fb10 : Workbook := (updateCore bookA oracleNF false ⟨1, 2⟩ dmD csD).getD []

/-! ### C10 -/

/-- **C10.** With no price port configured, `update_report` skips the
indicator analysis entirely: the run is identical to a run whose oracle finds
nothing (rank deltas, streaks and pairing marks are still computed), every
indicator cell of the day's sheet stays blank, and the update can complete
with success. -/
theorem C10_no_price_port (book : Workbook) (oracle : Name → PriceResult)
    (d : RDate) (dm : DataMap) (cs : CommonStocks) :
    updateCore book oracle false d dm cs =
      updateCore book (fun _ => PriceResult.notFound) true d dm cs
    ∧ (∀ fb, updateCore book oracle false d dm cs = some fb →
        ∀ sh ∈ fb, sh.title = sheet_title d →
          ∀ key, ∀ c ∈ (sh.data.sec key).highCells, c = none)
    ∧ (update_report (some bookA) [({ saveOk := true, content := none } : Storage)]
        oracle false ⟨1, 2⟩ dmD csD).2 = true := by
  refine ⟨?_, ?_, rfl⟩
  · rw [updateCore_eq, updateCore_eq]
    cases create_book_base book (sheet_title d) with
    | none => rfl
    | some base =>
      rw [show (if (false : Bool) then
            analyze_high_price_indicators oracle (create_ticker_map dm) else []) = [] from rfl]
      rw [show (if (true : Bool) then
            analyze_high_price_indicators (fun _ => PriceResult.notFound)
              (create_ticker_map dm) else []) =
          (create_ticker_map dm).map
            (fun p => (p.1, ((none : Option String), (none : Option String)))) from rfl]
      rw [build_sheet_data_indics_const]
  · intro fb hfb sh hsh htitle key c hc
    rw [updateCore_eq] at hfb
    rw [show create_book_base book (sheet_title d) =
        (if (book.filter (fun s => s.title ≠ sheet_title d)).isEmpty then none
         else some (book.filter (fun s => s.title ≠ sheet_title d))) from rfl] at hfb
    by_cases hbe : (book.filter (fun s => s.title ≠ sheet_title d)).isEmpty
    · rw [if_pos hbe] at hfb
      cases hfb
    · rw [if_neg hbe] at hfb
      rw [Option.some.injEq] at hfb
      subst hfb
      have hsh' := List.mem_of_mem_filter hsh
      rcases List.mem_append.mp hsh' with hb | hn
      · have hprop := List.of_mem_filter hb
        simp at hprop
        exact absurd htitle hprop
      · have hsheq : sh = (⟨sheet_title d,
            build_sheet_data dm cs (parse_previous_rankings book)
              (if (false : Bool) then
                analyze_high_price_indicators oracle (create_ticker_map dm) else [])
              (analyze_consecutive_streaks book)⟩ : Sheet) := List.mem_singleton.mp hn
        subst hsheq
        rw [show (if (false : Bool) then
              analyze_high_price_indicators oracle (create_ticker_map dm) else []) = []
            from rfl] at hc
        cases key <;> exact process_section_no_indics _ _ _ _ c hc

/-- Concrete instantiation of C10: the first indicator cell of the day's new
sheet, after an update run with no price port, is blank. -/
theorem C10_no_price_port_witness :
    (((fb10.getD 1 ⟨"", sheetDataA⟩).data.sec SegKey.kospiForeigner).highCells.getD 0
        (some ("x", "y"))) = none :=
  (C10_no_price_port bookA oracleNF ⟨1, 2⟩ dmD csD).2.1 fb10 (by decide)
    (fb10.getD 1 ⟨"", sheetDataA⟩) (by decide) (by decide) SegKey.kospiForeigner _ (by decide)

/-! ### C9 -/

/-- **C9.** A segment whose entry data is missing (`None`) or an empty
DataFrame is treated as having zero entities: the whole run is identical to a
run with that segment absent, the day's sheet carries an entirely cleared
section for it (no rows, deltas, streaks, marks or indicators), and whether
the update completes never depends on the per-segment data at all. -/
theorem C9_empty_segment (book : Workbook) (oracle : Name → PriceResult) (hp : Bool)
    (d : RDate) (dm : DataMap) (cs : CommonStocks) (key : SegKey)
    (h : dm.get key = none ∨ dm.get key = some []) :
    updateCore book oracle hp d dm cs = updateCore book oracle hp d (dm.set key none) cs
    ∧ (∀ fb, updateCore book oracle hp d dm cs = some fb →
        ∀ sh ∈ fb, sh.title = sheet_title d → sh.data.sec key = emptySection)
    ∧ (∀ dm' : DataMap,
        (updateCore book oracle hp d dm cs).isSome =
          (updateCore book oracle hp d dm' cs).isSome) := by
  have hticker : create_ticker_map (dm.set key none) = create_ticker_map dm := by
    cases key <;> rcases h with h | h <;> simp only [DataMap.get] at h <;>
      simp [create_ticker_map, segKeys, DataMap.get, DataMap.set, h, ticker_entries]
  have hsecEmpty : process_section (dm.get key) (marketCommon cs key)
      (parse_previous_rankings book key)
      (if hp then analyze_high_price_indicators oracle (create_ticker_map dm) else [])
      (analyze_consecutive_streaks book key) = emptySection := by
    rcases h with h | h <;> rw [h] <;> rfl
  have hbuild : ∀ (prev strk : SegKey → List (Name × Nat))
      (indics : List (Name × (Option String × Option String))),
      build_sheet_data dm cs prev indics strk =
        build_sheet_data (dm.set key none) cs prev indics strk := by
    intro prev strk indics
    cases key <;> rcases h with h | h <;> simp only [DataMap.get] at h <;>
      simp [build_sheet_data, DataMap.get, DataMap.set, h, process_section]
  refine ⟨?_, ?_, ?_⟩
  · rw [updateCore_eq, updateCore_eq, hticker]
    cases create_book_base book (sheet_title d) with
    | none => rfl
    | some base => rw [hbuild]
  · intro fb hfb sh hsh htitle
    rw [updateCore_eq] at hfb
    rw [show create_book_base book (sheet_title d) =
        (if (book.filter (fun s => s.title ≠ sheet_title d)).isEmpty then none
         else some (book.filter (fun s => s.title ≠ sheet_title d))) from rfl] at hfb
    by_cases hbe : (book.filter (fun s => s.title ≠ sheet_title d)).isEmpty
    · rw [if_pos hbe] at hfb
      cases hfb
    · rw [if_neg hbe] at hfb
      rw [Option.some.injEq] at hfb
      subst hfb
      have hsh' := List.mem_of_mem_filter hsh
      rcases List.mem_append.mp hsh' with hb | hn
      · have hprop := List.of_mem_filter hb
        simp at hprop
        exact absurd htitle hprop
      · have hsheq : sh = (⟨sheet_title d,
            build_sheet_data dm cs (parse_previous_rankings book)
              (if hp then analyze_high_price_indicators oracle (create_ticker_map dm) else [])
              (analyze_consecutive_streaks book)⟩ : Sheet) := List.mem_singleton.mp hn
        subst hsheq
        cases key <;> exact hsecEmpty
  · intro dm'
    rw [updateCore_eq, updateCore_eq]
    cases create_book_base book (sheet_title d) <;> rfl

/-- Concrete instantiation of C9: with the KOSPI-institutions segment missing,
the run equals the run with that segment explicitly removed. -/
theorem C9_empty_segment_witness :
    (dmD.get SegKey.kospiInstitutions = none ∨ dmD.get SegKey.kospiInstitutions = some [])
    ∧ updateCore bookA oracleNF false ⟨1, 2⟩ dmD csD =
        updateCore bookA oracleNF false ⟨1, 2⟩ (dmD.set SegKey.kospiInstitutions none) csD :=
  ⟨Or.inl rfl,
    (C9_empty_segment bookA oracleNF false ⟨1, 2⟩ dmD csD SegKey.kospiInstitutions
      (Or.inl rfl)).1⟩

/-! ### C8 -/

/-- **C8, counterexample.** With two target storages of which the second
fails, `update_report` returns failure — but the first storage has already
been given the full new snapshot, so "on failure no snapshot is appended" is
violated across the storage list. -/
theorem C8_counterexample :
    (update_report (some bookA)
        [(⟨true, none⟩ : Storage), (⟨false, none⟩ : Storage)]
        oracleNF false ⟨1, 2⟩ dmD csD).2 = false
    ∧ (update_report (some bookA)
        [(⟨true, none⟩ : Storage), (⟨false, none⟩ : Storage)]
        oracleNF false ⟨1, 2⟩ dmD csD).1.getD 0 ⟨false, none⟩ =
      ⟨true, some fb10⟩ := by
  refine ⟨by decide, by decide⟩

/-- **C8, amended.** `update_report` returns failure whenever the workbook
load fails, the sheet creation fails, or any target storage's save fails; a
load or sheet-creation failure writes to no storage, and on save the commit is
atomic *per storage* — each storage either keeps its previous content (its
save failed) or holds the complete new snapshot — but not atomic across the
list of target storages. -/
theorem C8_persistence_failure (loaded : Option Workbook) (targets : List Storage)
    (oracle : Name → PriceResult) (hp : Bool) (d : RDate) (dm : DataMap)
    (cs : CommonStocks) :
    (loaded = none → update_report loaded targets oracle hp d dm cs = (targets, false))
    ∧ (∀ book, loaded = some book → updateCore book oracle hp d dm cs = none →
        update_report loaded targets oracle hp d dm cs = (targets, false))
    ∧ (∀ book fb, loaded = some book → updateCore book oracle hp d dm cs = some fb →
        (update_report loaded targets oracle hp d dm cs).2 =
            targets.all (fun s => s.saveOk)
          ∧ (update_report loaded targets oracle hp d dm cs).1 =
            targets.map (fun s => if s.saveOk then ⟨s.saveOk, some fb⟩ else s)) := by
  refine ⟨?_, ?_, ?_⟩
  · intro hl
    subst hl
    rfl
  · intro book hl hc
    subst hl
    simp only [update_report, hc]
  · intro book fb hl hc
    subst hl
    simp only [update_report, hc]
    exact ⟨rfl, rfl⟩

/-- Concrete instantiation of C8 (amended): one succeeding storage, load and
sheet creation fine — the call succeeds and the storage holds the snapshot. -/
theorem C8_persistence_failure_witness :
    (update_report (some bookA) [(⟨true, none⟩ : Storage)] oracleNF false ⟨1, 2⟩
        dmD csD).2 =
      ([(⟨true, none⟩ : Storage)].all (fun s => s.saveOk))
    ∧ (update_report (some bookA) [(⟨true, none⟩ : Storage)] oracleNF false ⟨1, 2⟩
        dmD csD).1 =
      [(⟨true, none⟩ : Storage)].map
        (fun s => if s.saveOk then ⟨s.saveOk, some fb10⟩ else s) :=
  (C8_persistence_failure (some bookA) [(⟨true, none⟩ : Storage)] oracleNF false
      ⟨1, 2⟩ dmD csD).2.2 bookA fb10 rfl (by decide)

/-! ### C5 -/

/-- The rank-change cell of the sheet titled `t`, section `key`, row offset
`i`, of a workbook. -/
def rank_cell_of (wb : Workbook) (t : String) (key : SegKey) (i : Nat) : Option RankCell :=
  match wb.find? (fun sh => sh.title == t) with
  | some sh => ((sh.data.sec key).rankCells).get? i
  | none => none

/-- The streak-fill cell of the sheet titled `t`, section `key`, row offset
`i`, of a workbook. -/
def fill_of (wb : Workbook) (t : String) (key : SegKey) (i : Nat) :
    Option (Option String) :=
  match wb.find? (fun sh => sh.title == t) with
  | some sh => ((sh.data.sec key).fills).get? i
  | none => none

/-- **C5 (code bug).** Re-running the update for the same date with the same
inputs replaces the dated sheet (no duplicate), but the second run parses
previous ranks and streaks from the workbook *before* deleting the same-date
sheet, so it compares today against the first run's own output: on history
`{A}` with today `[B, A]`, run 1 annotates `A` with `▼1` (rank 1 → 2) and a
2-day (green) streak, while run 2 annotates `A` with `-` (no change) and a
3-day (yellow) streak — the annotations are not idempotent, contradicting the
code's own comment that all existing sheets predate the report date. -/
theorem C5_rerun_not_idempotent :
    ((updateCore bookA oracleNF false ⟨1, 2⟩ dmD csD).map
        (fun b => b.map (fun sh => sh.title))) = some ["0101", "0102"]
    ∧ ((updateCore bookA oracleNF false ⟨1, 2⟩ dmD csD).bind
        (fun b1 => (updateCore b1 oracleNF false ⟨1, 2⟩ dmD csD).map
          (fun b => b.map (fun sh => sh.title)))) = some ["0101", "0102"]
    ∧ ((updateCore bookA oracleNF false ⟨1, 2⟩ dmD csD).bind
        (fun b1 => rank_cell_of b1 "0102" SegKey.kospiForeigner 1)) =
      some (RankCell.down 1)
    ∧ ((updateCore bookA oracleNF false ⟨1, 2⟩ dmD csD).bind
        (fun b1 => (updateCore b1 oracleNF false ⟨1, 2⟩ dmD csD).bind
          (fun b2 => rank_cell_of b2 "0102" SegKey.kospiForeigner 1))) =
      some RankCell.dash
    ∧ ((updateCore bookA oracleNF false ⟨1, 2⟩ dmD csD).bind
        (fun b1 => fill_of b1 "0102" SegKey.kospiForeigner 1)) = some (some "green")
    ∧ ((updateCore bookA oracleNF false ⟨1, 2⟩ dmD csD).bind
        (fun b1 => (updateCore b1 oracleNF false ⟨1, 2⟩ dmD csD).bind
          (fun b2 => fill_of b2 "0102" SegKey.kospiForeigner 1))) =
      some (some "yellow") := by
  refine ⟨by decide, by decide, by decide, by decide, by decide, by decide⟩
